import Mathlib

/-!
Verification of the game state store of `bingo_app.py` (human-bingo app).

The app persists four SQLite tables (settings, players, facts, guesses) and
manipulates them through a handful of helper functions plus inline moderator
actions.  We embed the database as an explicit record of lists of rows, and
each SQL-backed helper as a pure state-passing function translated statement
by statement from the Python source.  `AUTOINCREMENT` primary keys are
modelled with explicit `next_*_id` counters (SQLite keeps the sequence across
`DELETE FROM`, so reset does not rewind them).
-/

namespace Bingo

/-- Row of the `players` table: `id INTEGER PRIMARY KEY AUTOINCREMENT`,
`name TEXT UNIQUE NOT NULL`, `created_at TEXT NOT NULL`. -/
structure Player where
  id : Nat
  name : String
  created_at : String
  deriving DecidableEq

/-- Row of the `facts` table: `id INTEGER PRIMARY KEY AUTOINCREMENT`,
`player_id INTEGER NOT NULL`, `text TEXT NOT NULL`. -/
structure Fact where
  id : Nat
  player_id : Nat
  text : String
  deriving DecidableEq

/-- Row of the `guesses` table: `id`, `guesser_id`, `fact_id`,
`guessed_player_id`, `created_at`, with `UNIQUE(guesser_id, fact_id)`. -/
structure Guess where
  id : Nat
  guesser_id : Nat
  fact_id : Nat
  guessed_player_id : Nat
  created_at : String
  deriving DecidableEq

/-- The whole SQLite database file: the four tables plus the autoincrement
sequences of the three tables that have `AUTOINCREMENT` keys.  The
`settings` table is a key-value list with `key TEXT PRIMARY KEY`. -/
structure DB where
  settings : List (String × String)
  players : List Player
  facts : List Fact
  guesses : List Guess
  next_player_id : Nat
  next_fact_id : Nat
  next_guess_id : Nat
  deriving DecidableEq

/-- `init_db` on a fresh file: all tables empty, sequences at 1 (SQLite
autoincrement ids start at 1). -/
def init_db : DB :=
  { settings := [], players := [], facts := [], guesses := []
    next_player_id := 1, next_fact_id := 1, next_guess_id := 1 }

/-- Effect of the `ON CONFLICT(key) DO UPDATE SET value=excluded.value`
clause on one settings row: the row holding `key` gets the new value. -/
def set_entry (key value : String) (kv : String × String) : String × String :=
  if kv.1 == key then (kv.1, value) else kv

/-- `set_setting(key, value)`:
`INSERT INTO settings(key,value) VALUES(?,?) ON CONFLICT(key) DO UPDATE SET
value=excluded.value`. -/
def set_setting (db : DB) (key value : String) : DB :=
  if db.settings.any (fun kv => kv.1 == key) then
    { db with settings := db.settings.map (set_entry key value) }
  else
    { db with settings := db.settings ++ [(key, value)] }

/-- `get_setting(key, default)`:
`SELECT value FROM settings WHERE key=?`, returning `default` when no row. -/
def get_setting (db : DB) (key default : String) : String :=
  match db.settings.find? (fun kv => kv.1 == key) with
  | some kv => kv.2
  | none => default

/-- `get_or_create_player(name)`: try
`INSERT INTO players(name, created_at) VALUES(?,?)`; a
`sqlite3.IntegrityError` (the `UNIQUE` name constraint) is swallowed; then
`SELECT id FROM players WHERE name=?` returns the row id, or `None`
(`Option.none`) if somehow absent. -/
def get_or_create_player (db : DB) (name now : String) : DB × Option Nat :=
  let db1 :=
    if db.players.any (fun p => p.name == name) then db
    else
      { db with
          players := db.players ++ [⟨db.next_player_id, name, now⟩]
          next_player_id := db.next_player_id + 1 }
  (db1, (db1.players.find? (fun p => p.name == name)).map Player.id)

/-- Python's `str.strip()`: drop leading and trailing whitespace characters.
(Defined structurally on the character list so that it evaluates inside the
kernel.) -/
def strip (s : String) : String :=
  ⟨((s.data.dropWhile Char.isWhitespace).reverse.dropWhile Char.isWhitespace).reverse⟩

/-- One `INSERT INTO facts(player_id, text) VALUES(?,?)`. -/
def insert_fact (db : DB) (player_id : Nat) (text : String) : DB :=
  { db with
      facts := db.facts ++ [⟨db.next_fact_id, player_id, text⟩]
      next_fact_id := db.next_fact_id + 1 }

/-- One iteration of the `for f in facts:` loop of `upsert_facts`:
`f = f.strip()`, then `INSERT` when `f` is non-empty. -/
def upsert_step (player_id : Nat) (d : DB) (s : String) : DB :=
  let s := strip s
  if s != "" then insert_fact d player_id s else d

/-- `upsert_facts(player_id, facts)`:
`DELETE FROM facts WHERE player_id=?`, then for each `f` in `facts`, strip it
and insert it when non-empty. -/
def upsert_facts (db : DB) (player_id : Nat) (facts : List String) : DB :=
  let db0 := { db with facts := db.facts.filter (fun f => f.player_id != player_id) }
  facts.foldl (upsert_step player_id) db0

/-- Outcome visible to the user of `register_guess`: either the stale-fact
warning ("Essa curiosidade não existe mais…") or a recorded guess. -/
inductive GuessOutcome
  | warned
  | recorded
  deriving DecidableEq

/-- The row condition `WHERE guesser_id=? AND fact_id=?` of the guesses
table. -/
def same_pair (guesser_id fact_id : Nat) (g : Guess) : Bool :=
  g.guesser_id == guesser_id && g.fact_id == fact_id

/-- Effect of
`UPDATE guesses SET guessed_player_id=?, created_at=? WHERE guesser_id=? AND
fact_id=?` on one row. -/
def update_guess (guesser_id fact_id guessed_player_id : Nat) (now : String)
    (g : Guess) : Guess :=
  if same_pair guesser_id fact_id g then
    { g with guessed_player_id := guessed_player_id, created_at := now }
  else g

/-- `register_guess(guesser_id, fact_id, guessed_player_id)`:
`SELECT COUNT(*) FROM facts WHERE id=?`; when 0, warn and return without
writing; otherwise `SELECT id FROM guesses WHERE guesser_id=? AND fact_id=?`
and either `UPDATE guesses SET guessed_player_id=?, created_at=?` on the
existing row or `INSERT OR IGNORE INTO guesses(...)` a fresh one. -/
def register_guess (db : DB) (guesser_id fact_id guessed_player_id : Nat)
    (now : String) : DB × GuessOutcome :=
  if db.facts.countP (fun f => f.id == fact_id) = 0 then
    (db, .warned)
  else if db.guesses.any (same_pair guesser_id fact_id) then
    ({ db with guesses :=
        db.guesses.map (update_guess guesser_id fact_id guessed_player_id now) },
     .recorded)
  else
    ({ db with
        guesses := db.guesses ++
          [⟨db.next_guess_id, guesser_id, fact_id, guessed_player_id, now⟩]
        next_guess_id := db.next_guess_id + 1 },
     .recorded)

/-- The joined score term of the leaderboard query for one guess row `g`:
`LEFT JOIN facts f ON g.fact_id = f.id` followed by
`SUM(CASE WHEN g.guessed_player_id = f.player_id THEN 1 ELSE 0 END)`
restricted to that guess (a dangling join, `f` NULL, contributes 0). -/
def fact_join_score (facts : List Fact) (g : Guess) : Nat :=
  (facts.filter (fun f => f.id == g.fact_id)).countP
    (fun f => g.guessed_player_id == f.player_id)

/-- The `score` column of the leaderboard query for player id `pid`:
guess rows with `g.guesser_id = p.id` (a player with none gets a single
all-NULL `g` row whose CASE is 0) each joined against `facts`. -/
def player_score (db : DB) (pid : Nat) : Nat :=
  ((db.guesses.filter (fun g => g.guesser_id == pid)).map
    (fact_join_score db.facts)).sum

/-- SQLite's default `BINARY` collation: lexicographic comparison of the
UTF-8 bytes, which coincides with lexicographic comparison of the code
points.  (Defined structurally so that it evaluates inside the kernel.) -/
def chars_lt : List Char → List Char → Bool
  | _, [] => false
  | [], _ :: _ => true
  | a :: as, b :: bs => decide (a.toNat < b.toNat) || (a == b && chars_lt as bs)

/-- `a < b` for `TEXT` values under the `BINARY` collation. -/
def string_lt (a b : String) : Bool :=
  chars_lt a.data b.data

/-- `ORDER BY score DESC, p.name ASC` as a relation on result rows
`(name, score)`: higher score first, and on equal scores the name that is
not greater comes first. -/
def lb_le (a b : String × Nat) : Prop :=
  b.2 < a.2 ∨ (a.2 = b.2 ∧ string_lt b.1 a.1 = false)

instance : DecidableRel lb_le := fun a b => by
  unfold lb_le
  exact inferInstance

/-- `leaderboard(limit)`: one `(p.name, score)` row per player
(`GROUP BY p.id`), ordered by `score DESC, p.name ASC`, `LIMIT ?`. -/
def leaderboard (db : DB) (limit : Nat) : List (String × Nat) :=
  (List.insertionSort lb_le
    (db.players.map (fun p => (p.name, player_score db p.id)))).take limit

/-- The moderator panel's `🧹 Resetar tudo` button:
`DELETE FROM guesses; DELETE FROM facts; DELETE FROM players;
DELETE FROM settings;` (plain `DELETE FROM` keeps the autoincrement
sequences). -/
def reset_all (db : DB) : DB :=
  { db with settings := [], players := [], facts := [], guesses := [] }

/-- The three moderator actions of `page_moderator` that write lifecycle
state. -/
inductive ModAction
  | start
  | finish
  | reset
  deriving DecidableEq

/-- Effect of one moderator action on the store: `🚀 Iniciar jogo` runs
`set_setting("started","1"); set_setting("finished","0")`; `⛔ Encerrar jogo`
runs `set_setting("finished","1"); set_setting("started","0")`;
`🧹 Resetar tudo` wipes the tables. -/
def mod_step (db : DB) : ModAction → DB
  | .start => set_setting (set_setting db "started" "1") "finished" "0"
  | .finish => set_setting (set_setting db "finished" "1") "started" "0"
  | .reset => reset_all db

/-- The spec-level score of player id `pid`: the number of guesses whose
guesser is `pid` and whose claimed author equals the current true author
(the owning `player_id` of some fact row carrying the guessed fact id). -/
def spec_score (db : DB) (pid : Nat) : Nat :=
  db.guesses.countP (fun g =>
    g.guesser_id == pid &&
      db.facts.any (fun f => f.id == g.fact_id && f.player_id == g.guessed_player_id))

/-- The `UNIQUE(guesser_id, fact_id)` constraint of the guesses table as a
state invariant. -/
def GuessPairsUnique (l : List Guess) : Prop :=
  (l.map (fun g => (g.guesser_id, g.fact_id))).Nodup

/-- The spec's scenario, step 1: Alice registers (player id 1). -/
def scenario_alice : DB := (get_or_create_player init_db "Alice" "t0").1

/-- Step 2: Alice submits her three facts (fact ids 1, 2, 3). -/
def scenario_facts : DB :=
  upsert_facts scenario_alice 1 ["likes tea", "plays chess", "owns a cat"]

/-- Step 3: Bob registers (player id 2). -/
def scenario_bob : DB := (get_or_create_player scenario_facts "Bob" "t1").1

/-- Step 4: Bob guesses that fact 1 ("likes tea") belongs to Alice
(player 1). -/
def scenario_db : DB := (register_guess scenario_bob 2 1 1 "t2").1

end Bingo

namespace Bingo

/-! ### Helper lemmas about the settings table -/

theorem set_entry_fst (k v : String) (kv : String × String) :
    (set_entry k v kv).1 = kv.1 := by
  unfold set_entry
  split <;> rfl

theorem find?_map_set_entry (k v : String) (l : List (String × String))
    (h : l.any (fun kv => kv.1 == k) = true) :
    (l.map (set_entry k v)).find? (fun kv => kv.1 == k) = some (k, v) := by
  induction l with
  | nil => simp at h
  | cons kv l ih =>
    by_cases hk : kv.1 = k
    · simp [set_entry, hk]
    · have hk' : (kv.1 == k) = false := beq_eq_false_iff_ne.mpr hk
      simp only [List.any_cons, hk', Bool.false_or] at h
      simp [set_entry, hk', ih h]

theorem find?_eq_none_of_any_false (k : String) (l : List (String × String))
    (h : l.any (fun kv => kv.1 == k) = false) :
    l.find? (fun kv => kv.1 == k) = none := by
  induction l with
  | nil => rfl
  | cons kv l ih =>
    simp only [List.any_cons, Bool.or_eq_false_iff] at h
    simp [h.1, ih h.2]

theorem find?_append_left_none {α : Type} (p : α → Bool) (l l2 : List α)
    (h : l.find? p = none) :
    (l ++ l2).find? p = l2.find? p := by
  induction l with
  | nil => rfl
  | cons a l ih =>
    by_cases ha : p a
    · simp [List.find?_cons, ha] at h
    · have ha' : p a = false := Bool.eq_false_iff.mpr ha
      simp only [List.cons_append, List.find?_cons, ha'] at h ⊢
      exact ih h

theorem get_setting_set_setting (db : DB) (k v d : String) :
    get_setting (set_setting db k v) k d = v := by
  unfold set_setting get_setting
  by_cases h : db.settings.any (fun kv => kv.1 == k)
  · simp only [h, if_true]
    rw [find?_map_set_entry k v _ h]
  · simp only [h, Bool.false_eq_true, if_false]
    rw [find?_append_left_none _ _ _
      (find?_eq_none_of_any_false k _ (Bool.eq_false_iff.mpr h))]
    simp [List.find?_cons]


theorem set_entry_absorb (k v v' : String) (kv : String × String) :
    set_entry k v (set_entry k v' kv) = set_entry k v kv := by
  unfold set_entry
  by_cases hk : kv.1 == k
  · simp [hk]
  · have hk' : (kv.1 == k) = false := Bool.eq_false_iff.mpr hk
    simp [hk']

theorem any_key_map_set_entry (k v : String) (l : List (String × String)) :
    (l.map (set_entry k v)).any (fun kv => kv.1 == k)
      = l.any (fun kv => kv.1 == k) := by
  induction l with
  | nil => rfl
  | cons kv l ih => simp [set_entry_fst, ih]

theorem map_set_entry_of_absent (k v : String) (l : List (String × String))
    (h : l.any (fun kv => kv.1 == k) = false) :
    l.map (set_entry k v) = l := by
  induction l with
  | nil => rfl
  | cons kv l ih =>
    simp only [List.any_cons, Bool.or_eq_false_iff] at h
    simp [set_entry, h.1, ih h.2]

theorem set_setting_absorb (db : DB) (k v v' : String) :
    (set_setting (set_setting db k v') k v).settings
      = (set_setting db k v).settings := by
  unfold set_setting
  by_cases h : db.settings.any (fun kv => kv.1 == k)
  · simp only [h, if_true, any_key_map_set_entry, List.map_map]
    exact List.map_congr_left (fun kv _ => set_entry_absorb k v v' kv)
  · have h' : db.settings.any (fun kv => kv.1 == k) = false := Bool.eq_false_iff.mpr h
    simp only [h', Bool.false_eq_true, if_false]
    have happ : (db.settings ++ [(k, v')]).any (fun kv => kv.1 == k) = true := by
      simp [List.any_append]
    simp only [happ, if_true, List.map_append, map_set_entry_of_absent k v _ h']
    simp [set_entry]

theorem set_setting_idem (db : DB) (k v : String) :
    set_setting (set_setting db k v) k v = set_setting db k v := by
  by_cases h : db.settings.any (fun kv => kv.1 == k)
  · have h1 : set_setting db k v
        = { db with settings := db.settings.map (set_entry k v) } := by
      unfold set_setting
      simp only [h, if_true]
    have h2 : (db.settings.map (set_entry k v)).any (fun kv => kv.1 == k) = true := by
      rw [any_key_map_set_entry]
      exact h
    rw [h1]
    unfold set_setting
    simp only [h2, if_true]
    congr 1
    rw [List.map_map]
    exact List.map_congr_left (fun kv _ => set_entry_absorb k v v kv)
  · have h' : db.settings.any (fun kv => kv.1 == k) = false := Bool.eq_false_iff.mpr h
    have h1 : set_setting db k v = { db with settings := db.settings ++ [(k, v)] } := by
      unfold set_setting
      simp only [h', Bool.false_eq_true, if_false]
    have h2 : (db.settings ++ [(k, v)]).any (fun kv => kv.1 == k) = true := by
      simp [List.any_append]
    rw [h1]
    unfold set_setting
    simp only [h2, if_true]
    congr 1
    rw [List.map_append, map_set_entry_of_absent k v _ h']
    simp [set_entry]

theorem get_setting_absent (db : DB) (k d : String)
    (h : db.settings.any (fun kv => kv.1 == k) = false) :
    get_setting db k d = d := by
  unfold get_setting
  rw [find?_eq_none_of_any_false k _ h]

/-! ### C6: reset yields the empty state -/

/-- C6: after the moderator reset, the players, facts, guesses and settings
tables are all empty, and the lifecycle flags read back as their absent-key
defaults: `get_setting "started" "0"` and `get_setting "finished" "0"` both
return `"0"`, i.e. `started=false` and `finished=false`. -/
theorem reset_all_empty_state (db : DB) :
    (reset_all db).players = [] ∧ (reset_all db).facts = [] ∧
    (reset_all db).guesses = [] ∧ (reset_all db).settings = [] ∧
    get_setting (reset_all db) "started" "0" = "0" ∧
    get_setting (reset_all db) "finished" "0" = "0" :=
  ⟨rfl, rfl, rfl, rfl, rfl, rfl⟩

/-! ### C8: set_setting / get_setting as an idempotent key-value upsert -/

/-- C8 counterexample: `get_setting` does NOT return the default exactly
when the key is absent.  After `set_setting "finished" "0"` the key
`"finished"` has been set (the settings table holds it), yet a read with
default `"0"` still returns the default value `"0"`.  (The app really hits
this: starting the game writes `finished="0"`, the same string the player
page uses as the read default.) -/
theorem get_setting_default_not_iff_absent :
    ¬ (∀ (db : DB) (k d : String),
        get_setting db k d = d ↔ db.settings.any (fun kv => kv.1 == k) = false) := by
  intro hiff
  have h := (hiff (set_setting init_db "finished" "0") "finished" "0").mp (by decide)
  exact absurd h (by decide)

/-- C8 (amended): `set_setting`/`get_setting` form an idempotent key-value
upsert/read pair: reading a key just written returns the written value for
any default; rewriting the same value is a no-op; a second write overwrites
the first (writing `v'` then `v` leaves the same settings state as writing
`v` alone); and when the key is absent (never set, or cleared by reset),
`get_setting` returns the default. -/
theorem settings_upsert_read_pair (db : DB) (k v v' d : String) :
    get_setting (set_setting db k v) k d = v ∧
    set_setting (set_setting db k v) k v = set_setting db k v ∧
    (set_setting (set_setting db k v') k v).settings = (set_setting db k v).settings ∧
    (db.settings.any (fun kv => kv.1 == k) = false → get_setting db k d = d) :=
  ⟨get_setting_set_setting db k v d, set_setting_idem db k v,
    set_setting_absorb db k v v', get_setting_absent db k d⟩

/-- Witness for C8: the amended properties at concrete inputs, with the
absent-key hypothesis discharged on `init_db`. -/
theorem settings_upsert_read_pair_witness :
    get_setting (set_setting init_db "started" "1") "started" "0" = "1" ∧
    set_setting (set_setting init_db "started" "1") "started" "1"
      = set_setting init_db "started" "1" ∧
    (set_setting (set_setting init_db "started" "0") "started" "1").settings
      = (set_setting init_db "started" "1").settings ∧
    ((init_db.settings.any (fun kv => kv.1 == "started") = false) →
      get_setting init_db "started" "0" = "0") :=
  settings_upsert_read_pair init_db "started" "1" "0" "0"

/-! ### C5: register_guess on a missing fact drops the write -/

/-- C5: when the referenced fact does not exist (`COUNT(*)` is 0),
`register_guess` reports the stale-state warning and returns before any
write: the whole database, and in particular the guesses table, is
unchanged. -/
theorem register_guess_stale_fact (db : DB)
    (guesser_id fact_id guessed_player_id : Nat) (now : String)
    (h : db.facts.countP (fun f => f.id == fact_id) = 0) :
    (register_guess db guesser_id fact_id guessed_player_id now).2
        = GuessOutcome.warned ∧
    (register_guess db guesser_id fact_id guessed_player_id now).1.guesses
        = db.guesses ∧
    (register_guess db guesser_id fact_id guessed_player_id now).1 = db := by
  unfold register_guess
  rw [if_pos h]
  exact ⟨rfl, rfl, rfl⟩

/-- Witness for C5: guessing on fact id 9, which does not exist in the
scenario database, is dropped. -/
theorem register_guess_stale_fact_witness :
    (register_guess scenario_db 2 9 1 "t9").2 = GuessOutcome.warned ∧
    (register_guess scenario_db 2 9 1 "t9").1.guesses = scenario_db.guesses ∧
    (register_guess scenario_db 2 9 1 "t9").1 = scenario_db :=
  register_guess_stale_fact scenario_db 2 9 1 "t9" (by decide)


/-! ### C9: upsert_facts with only blank strings wipes the player's facts -/

theorem foldl_upsert_step_blank (p : Nat) (S : List String) (d : DB)
    (h : ∀ s ∈ S, strip s = "") :
    S.foldl (upsert_step p) d = d := by
  induction S generalizing d with
  | nil => rfl
  | cons s S ih =>
    have hs : strip s = "" := h s (List.mem_cons_self s S)
    have hstep : upsert_step p d s = d := by
      unfold upsert_step
      simp [hs]
    rw [List.foldl_cons, hstep]
    exact ih d (fun t ht => h t (List.mem_cons_of_mem s ht))

theorem countP_own_filter_other (l : List Fact) (p : Nat) :
    (l.filter (fun f => f.player_id != p)).countP (fun f => f.player_id == p) = 0 := by
  rw [List.countP_eq_zero]
  intro f hf
  have hne := List.of_mem_filter hf
  simp only [bne_iff_ne, ne_eq] at hne
  simp [hne]

/-- C9: the delete of the player's prior facts is unconditional: calling
`upsert_facts p S` with every entry of `S` blank (stripping to the empty
string, which covers `S = []` as well) deletes all of player `p`'s rows and
inserts nothing, leaving the facts table equal to the rows of the other
players and `p` with zero fact rows. -/
theorem upsert_facts_blank (db : DB) (p : Nat) (S : List String)
    (h : ∀ s ∈ S, strip s = "") :
    (upsert_facts db p S).facts = db.facts.filter (fun f => f.player_id != p) ∧
    (upsert_facts db p S).facts.countP (fun f => f.player_id == p) = 0 := by
  have h1 : upsert_facts db p S
      = { db with facts := db.facts.filter (fun f => f.player_id != p) } := by
    unfold upsert_facts
    exact foldl_upsert_step_blank p S _ h
  rw [h1]
  exact ⟨rfl, countP_own_filter_other _ p⟩

/-- Witness for C9: wiping Alice's three scenario facts with a list of
blank strings. -/
theorem upsert_facts_blank_witness :
    (∀ s ∈ ["", "   "], strip s = "") ∧
    ((upsert_facts scenario_facts 1 ["", "   "]).facts
        = scenario_facts.facts.filter (fun f => f.player_id != 1) ∧
      (upsert_facts scenario_facts 1 ["", "   "]).facts.countP
        (fun f => f.player_id == 1) = 0) :=
  ⟨by decide, upsert_facts_blank scenario_facts 1 ["", "   "] (by decide)⟩

/-! ### C10: the lifecycle flags are never both "1" -/

theorem mod_step_not_both (db : DB) (a : ModAction) :
    ¬ (get_setting (mod_step db a) "started" "0" = "1" ∧
       get_setting (mod_step db a) "finished" "0" = "1") := by
  cases a with
  | start =>
    intro hc
    have h0 : get_setting (mod_step db ModAction.start) "finished" "0" = "0" :=
      get_setting_set_setting (set_setting db "started" "1") "finished" "0" "0"
    exact absurd (h0.symm.trans hc.2) (by decide)
  | finish =>
    intro hc
    have h0 : get_setting (mod_step db ModAction.finish) "started" "0" = "0" :=
      get_setting_set_setting (set_setting db "finished" "1") "started" "0" "0"
    exact absurd (h0.symm.trans hc.1) (by decide)
  | reset =>
    intro hc
    have h0 : get_setting (mod_step db ModAction.reset) "started" "0" = "0" := rfl
    exact absurd (h0.symm.trans hc.1) (by decide)

theorem foldl_mod_step_not_both (acts : List ModAction) (db : DB)
    (h : ¬ (get_setting db "started" "0" = "1" ∧
            get_setting db "finished" "0" = "1")) :
    ¬ (get_setting (acts.foldl mod_step db) "started" "0" = "1" ∧
       get_setting (acts.foldl mod_step db) "finished" "0" = "1") := by
  induction acts generalizing db with
  | nil => exact h
  | cons a acts ih => exact ih (mod_step db a) (mod_step_not_both db a)

/-- C10: in any state reachable from the initial state by moderator
start/finish/reset actions, the two lifecycle flags are never both `"1"`:
the boolean the pages compute (`get_setting(k,"0") == "1"` for both keys,
conjoined) is `false`.  Start writes `started="1", finished="0"`, finish
writes `finished="1", started="0"`, reset clears the table. -/
theorem lifecycle_flags_mutex (acts : List ModAction) :
    (get_setting (acts.foldl mod_step init_db) "started" "0" == "1" &&
     get_setting (acts.foldl mod_step init_db) "finished" "0" == "1") = false := by
  by_contra hb
  rw [Bool.not_eq_false, Bool.and_eq_true, beq_iff_eq, beq_iff_eq] at hb
  exact foldl_mod_step_not_both acts init_db (by decide) hb


/-! ### C7: get_or_create_player is idempotent, exact-match, swallowing -/

theorem get_or_create_player_snd (db : DB) (n t : String) :
    (get_or_create_player db n t).2
      = ((get_or_create_player db n t).1.players.find?
          (fun p => p.name == n)).map Player.id := rfl

theorem get_or_create_player_fst_of_any (db : DB) (n t : String)
    (h : db.players.any (fun p => p.name == n) = true) :
    (get_or_create_player db n t).1 = db := by
  unfold get_or_create_player
  simp only [h, if_true]

theorem any_name_get_or_create (db : DB) (n t : String) :
    (get_or_create_player db n t).1.players.any (fun p => p.name == n) = true := by
  unfold get_or_create_player
  by_cases h : db.players.any (fun p => p.name == n)
  · simp [h]
  · have h' : db.players.any (fun p => p.name == n) = false := Bool.eq_false_iff.mpr h
    simp only [h', Bool.false_eq_true, if_false]
    simp [List.any_append]

/-- C7: calling `get_or_create_player` twice with the same name returns the
same player id both times (and the second call does not change the store);
the lookup matches the stored name exactly (the row found carries exactly
the queried string, under SQLite's case-sensitive `=` on `TEXT`); and when
a player with the name already exists, the duplicate insert is swallowed
and the store is returned unchanged with the existing row's id. -/
theorem get_or_create_player_idem (db : DB) (n t1 t2 : String) :
    (∃ i, (get_or_create_player db n t1).2 = some i ∧
      (get_or_create_player (get_or_create_player db n t1).1 n t2).2 = some i) ∧
    (get_or_create_player (get_or_create_player db n t1).1 n t2).1
        = (get_or_create_player db n t1).1 ∧
    (∀ q, (get_or_create_player db n t1).1.players.find? (fun p => p.name == n)
        = some q → q.name = n ∧ (get_or_create_player db n t1).2 = some q.id) ∧
    (db.players.any (fun p => p.name == n) = true →
      (get_or_create_player db n t1).1 = db) := by
  have hany : (get_or_create_player db n t1).1.players.any
      (fun p => p.name == n) = true := any_name_get_or_create db n t1
  have h21 : (get_or_create_player (get_or_create_player db n t1).1 n t2).1
      = (get_or_create_player db n t1).1 :=
    get_or_create_player_fst_of_any _ n t2 hany
  obtain ⟨q, hmem, hq⟩ := List.any_eq_true.mp hany
  have hfind : ∃ r, (get_or_create_player db n t1).1.players.find?
      (fun p => p.name == n) = some r := by
    rw [← Option.isSome_iff_exists, List.find?_isSome]
    exact ⟨q, hmem, hq⟩
  obtain ⟨r, hr⟩ := hfind
  refine ⟨⟨r.id, ?_, ?_⟩, h21, ?_, get_or_create_player_fst_of_any db n t1⟩
  · rw [get_or_create_player_snd, hr]
    rfl
  · rw [get_or_create_player_snd, h21, hr]
    rfl
  · intro q' hq'
    have hpred := List.find?_some hq'
    constructor
    · exact eq_of_beq hpred
    · rw [get_or_create_player_snd, hq']
      rfl

/-- Witness for C7: registering "Alice" twice on a fresh store returns the
same id. -/
theorem get_or_create_player_idem_witness :
    ∃ i, (get_or_create_player init_db "Alice" "t0").2 = some i ∧
      (get_or_create_player (get_or_create_player init_db "Alice" "t0").1
        "Alice" "t1").2 = some i :=
  (get_or_create_player_idem init_db "Alice" "t0" "t1").1


/-! ### C4: upsert_facts replaces exactly the player's rows -/

theorem upsert_step_eq (p : Nat) (d : DB) (s : String) :
    upsert_step p d s = if strip s != "" then insert_fact d p (strip s) else d := rfl

theorem foldl_upsert_step_countP (p : Nat) (S : List String) (d : DB) :
    (S.foldl (upsert_step p) d).facts.countP (fun f => f.player_id == p)
      = d.facts.countP (fun f => f.player_id == p)
        + ((S.map strip).filter (fun s => s != "")).length := by
  induction S generalizing d with
  | nil => simp
  | cons s S ih =>
    rw [List.foldl_cons, ih, upsert_step_eq]
    by_cases hs : strip s != ""
    · have hins : (insert_fact d p (strip s)).facts.countP (fun f => f.player_id == p)
          = d.facts.countP (fun f => f.player_id == p) + 1 := by
        unfold insert_fact
        simp [List.countP_append, List.countP_cons]
      simp only [hs, if_true, hins, List.map_cons, List.filter_cons, List.length_cons]
      omega
    · have hs' : (strip s != "") = false := Bool.eq_false_iff.mpr hs
      simp [hs', List.map_cons, List.filter_cons]

theorem foldl_upsert_step_others (p : Nat) (S : List String) (d : DB) :
    (S.foldl (upsert_step p) d).facts.filter (fun f => f.player_id != p)
      = d.facts.filter (fun f => f.player_id != p) := by
  induction S generalizing d with
  | nil => rfl
  | cons s S ih =>
    rw [List.foldl_cons, ih, upsert_step_eq]
    by_cases hs : strip s != ""
    · simp only [hs, if_true]
      unfold insert_fact
      simp [List.filter_append, List.filter_cons]
    · have hs' : (strip s != "") = false := Bool.eq_false_iff.mpr hs
      simp [hs']

theorem foldl_upsert_step_ids (p n : Nat) (S : List String) (d : DB)
    (hf : ∀ f ∈ d.facts, f.player_id = p → n ≤ f.id) (hn : n ≤ d.next_fact_id) :
    ∀ f ∈ (S.foldl (upsert_step p) d).facts, f.player_id = p → n ≤ f.id := by
  induction S generalizing d with
  | nil => exact hf
  | cons s S ih =>
    rw [List.foldl_cons]
    refine ih (upsert_step p d s) ?_ ?_
    · intro f hfmem hfp
      rw [upsert_step_eq] at hfmem
      by_cases hs : strip s != ""
      · simp only [hs, if_true] at hfmem
        unfold insert_fact at hfmem
        rcases List.mem_append.mp hfmem with hold | hnew
        · exact hf f hold hfp
        · have : f = ⟨d.next_fact_id, p, strip s⟩ := List.mem_singleton.mp hnew
          rw [this]
          exact hn
      · have hs' : (strip s != "") = false := Bool.eq_false_iff.mpr hs
        simp only [hs', Bool.false_eq_true, if_false] at hfmem
        exact hf f hfmem hfp
    · rw [upsert_step_eq]
      by_cases hs : strip s != ""
      · simp only [hs, if_true]
        unfold insert_fact
        exact Nat.le_succ_of_le hn
      · have hs' : (strip s != "") = false := Bool.eq_false_iff.mpr hs
        simp only [hs', Bool.false_eq_true, if_false]
        exact hn

/-- C4: after `upsert_facts p S` the facts table holds exactly one row owned
by `p` per entry of `S` whose stripped text is non-empty (counting
duplicates), none of `p`'s prior rows survive, and the rows of the other
players are untouched. -/
theorem upsert_facts_spec (db : DB) (p : Nat) (S : List String)
    (hid : ∀ f ∈ db.facts, f.id < db.next_fact_id) :
    (upsert_facts db p S).facts.countP (fun f => f.player_id == p)
        = ((S.map strip).filter (fun s => s != "")).length ∧
    (∀ f ∈ db.facts, f.player_id = p → f ∉ (upsert_facts db p S).facts) ∧
    (upsert_facts db p S).facts.filter (fun f => f.player_id != p)
        = db.facts.filter (fun f => f.player_id != p) := by
  have hdef : upsert_facts db p S
      = S.foldl (upsert_step p)
          { db with facts := db.facts.filter (fun f => f.player_id != p) } := rfl
  refine ⟨?_, ?_, ?_⟩
  · rw [hdef, foldl_upsert_step_countP]
    have h0 : ({ db with facts := db.facts.filter (fun f => f.player_id != p) }
        : DB).facts.countP (fun f => f.player_id == p) = 0 :=
      countP_own_filter_other db.facts p
    rw [h0, Nat.zero_add]
  · intro f hfmem hfp hmem2
    have hge : db.next_fact_id ≤ f.id := by
      refine foldl_upsert_step_ids p db.next_fact_id S
        { db with facts := db.facts.filter (fun f => f.player_id != p) }
        ?_ (Nat.le_refl _) f (hdef ▸ hmem2) hfp
      intro g hg hgp
      have hne := List.of_mem_filter hg
      simp only [bne_iff_ne, ne_eq] at hne
      exact absurd hgp hne
    exact absurd (hid f hfmem) (Nat.not_lt.mpr hge)
  · rw [hdef, foldl_upsert_step_others]
    show (db.facts.filter (fun f => f.player_id != p)).filter
        (fun f => f.player_id != p) = db.facts.filter (fun f => f.player_id != p)
    rw [List.filter_filter]
    simp [Bool.and_self]

/-- Witness for C4: replacing Alice's three scenario facts with a list
holding one non-blank entry and two blank ones leaves her exactly one row. -/
theorem upsert_facts_spec_witness :
    (∀ f ∈ scenario_facts.facts, f.id < scenario_facts.next_fact_id) ∧
    ((upsert_facts scenario_facts 1 ["new fact", " ", ""]).facts.countP
          (fun f => f.player_id == 1)
        = (((["new fact", " ", ""] : List String).map strip).filter
            (fun s => s != "")).length ∧
      (∀ f ∈ scenario_facts.facts, f.player_id = 1 →
        f ∉ (upsert_facts scenario_facts 1 ["new fact", " ", ""]).facts) ∧
      (upsert_facts scenario_facts 1 ["new fact", " ", ""]).facts.filter
          (fun f => f.player_id != 1)
        = scenario_facts.facts.filter (fun f => f.player_id != 1)) :=
  ⟨by decide, upsert_facts_spec scenario_facts 1 ["new fact", " ", ""] (by decide)⟩


/-! ### C2 / C3: guess upsert keeps one row per (guesser, fact) -/

theorem same_pair_update_guess (gid fid a : Nat) (now : String) (g : Guess) :
    same_pair gid fid (update_guess gid fid a now g) = same_pair gid fid g := by
  unfold update_guess
  by_cases h : same_pair gid fid g
  · rw [if_pos h]
    exact h.trans (Eq.symm h)
  · rw [if_neg h]

theorem filter_map_update (p : Guess → Bool) (u : Guess → Guess)
    (hpu : ∀ g, p (u g) = p g) (l : List Guess) :
    (l.map u).filter p = (l.filter p).map u := by
  induction l with
  | nil => rfl
  | cons g l ih =>
    by_cases h : p g
    · simp [List.filter_cons, hpu, h, ih]
    · have h' : p g = false := Bool.eq_false_iff.mpr h
      simp [List.filter_cons, hpu, h', ih]

theorem pair_eq_of_same_pair (gid fid : Nat) (g : Guess)
    (h : same_pair gid fid g = true) : (g.guesser_id, g.fact_id) = (gid, fid) := by
  unfold same_pair at h
  rw [Bool.and_eq_true, beq_iff_eq, beq_iff_eq] at h
  rw [h.1, h.2]

theorem filter_same_pair_length_le_one (l : List Guess) (h : GuessPairsUnique l)
    (gid fid : Nat) : (l.filter (same_pair gid fid)).length ≤ 1 := by
  induction l with
  | nil => simp
  | cons g l ih =>
    unfold GuessPairsUnique at h ih
    rw [List.map_cons, List.nodup_cons] at h
    by_cases hg : same_pair gid fid g
    · have hnil : l.filter (same_pair gid fid) = [] := by
        rw [List.filter_eq_nil_iff]
        intro x hx hpx
        apply h.1
        have hxkey : (x.guesser_id, x.fact_id) = (gid, fid) :=
          pair_eq_of_same_pair gid fid x hpx
        have hgkey : (g.guesser_id, g.fact_id) = (gid, fid) :=
          pair_eq_of_same_pair gid fid g hg
        rw [hgkey, ← hxkey]
        exact List.mem_map_of_mem (fun y => (y.guesser_id, y.fact_id)) hx
      simp [List.filter_cons, hg, hnil]
    · have hg' : same_pair gid fid g = false := Bool.eq_false_iff.mpr hg
      simp only [List.filter_cons, hg', Bool.false_eq_true, if_false]
      exact ih h.2

theorem register_guess_facts (db : DB) (gid fid a : Nat) (now : String) :
    (register_guess db gid fid a now).1.facts = db.facts := by
  unfold register_guess
  split
  · rfl
  · split <;> rfl

theorem register_guess_update_branch (db : DB) (gid fid a : Nat) (now : String)
    (hfact : db.facts.countP (fun f => f.id == fid) ≠ 0)
    (hex : db.guesses.any (same_pair gid fid) = true) :
    (register_guess db gid fid a now).1.guesses
      = db.guesses.map (update_guess gid fid a now) := by
  unfold register_guess
  rw [if_neg hfact]
  simp only [hex, if_true]

theorem register_guess_insert_branch (db : DB) (gid fid a : Nat) (now : String)
    (hfact : db.facts.countP (fun f => f.id == fid) ≠ 0)
    (hex : db.guesses.any (same_pair gid fid) = false) :
    (register_guess db gid fid a now).1.guesses
      = db.guesses ++ [⟨db.next_guess_id, gid, fid, a, now⟩] := by
  unfold register_guess
  rw [if_neg hfact]
  simp only [hex, Bool.false_eq_true, if_false]

theorem register_guess_preserves_unique (db : DB) (gid fid a : Nat) (now : String)
    (h : GuessPairsUnique db.guesses) :
    GuessPairsUnique (register_guess db gid fid a now).1.guesses := by
  unfold GuessPairsUnique at h ⊢
  by_cases hfact : db.facts.countP (fun f => f.id == fid) = 0
  · unfold register_guess
    rw [if_pos hfact]
    exact h
  · by_cases hex : db.guesses.any (same_pair gid fid)
    · rw [register_guess_update_branch db gid fid a now hfact hex]
      have hkeys : (db.guesses.map (update_guess gid fid a now)).map
          (fun g => (g.guesser_id, g.fact_id))
          = db.guesses.map (fun g => (g.guesser_id, g.fact_id)) := by
        rw [List.map_map]
        refine List.map_congr_left ?_
        intro g _
        show ((update_guess gid fid a now g).guesser_id,
          (update_guess gid fid a now g).fact_id) = (g.guesser_id, g.fact_id)
        unfold update_guess
        by_cases hg : same_pair gid fid g
        · rw [if_pos hg]
        · rw [if_neg hg]
      rw [hkeys]
      exact h
    · have hex' : db.guesses.any (same_pair gid fid) = false :=
        Bool.eq_false_iff.mpr hex
      rw [register_guess_insert_branch db gid fid a now hfact hex', List.map_append]
      refine h.append (by simp) ?_
      intro x hx hx2
      simp only [List.map_cons, List.map_nil, List.mem_singleton] at hx2
      subst hx2
      obtain ⟨g, hgmem, hgkey⟩ := List.mem_map.mp hx
      have hsp : same_pair gid fid g = true := by
        unfold same_pair
        have h1 : g.guesser_id = gid := congrArg Prod.fst hgkey
        have h2 : g.fact_id = fid := congrArg Prod.snd hgkey
        rw [h1, h2]
        simp
      rw [List.any_eq_true] at hex
      exact hex ⟨g, hgmem, hsp⟩

theorem register_guess_overwrite_lemma (db : DB) (gid fid a : Nat) (now : String)
    (huniq : GuessPairsUnique db.guesses)
    (hex : db.guesses.any (same_pair gid fid) = true)
    (hfact : db.facts.countP (fun f => f.id == fid) ≠ 0) :
    (register_guess db gid fid a now).1.guesses.length = db.guesses.length ∧
    ∃ r, (register_guess db gid fid a now).1.guesses.filter (same_pair gid fid)
        = [r] ∧ r.guessed_player_id = a := by
  rw [register_guess_update_branch db gid fid a now hfact hex]
  refine ⟨by simp, ?_⟩
  rw [filter_map_update _ _ (same_pair_update_guess gid fid a now)]
  obtain ⟨g0, hg0mem, hg0⟩ := List.any_eq_true.mp hex
  have hmemf : g0 ∈ db.guesses.filter (same_pair gid fid) :=
    List.mem_filter.mpr ⟨hg0mem, hg0⟩
  have hle := filter_same_pair_length_le_one db.guesses huniq gid fid
  have hpos : 0 < (db.guesses.filter (same_pair gid fid)).length :=
    List.length_pos.mpr (List.ne_nil_of_mem hmemf)
  have hlen1 : (db.guesses.filter (same_pair gid fid)).length = 1 := by omega
  obtain ⟨r0, hr0⟩ := List.length_eq_one.mp hlen1
  have hr0p : same_pair gid fid r0 = true := by
    have hmem : r0 ∈ db.guesses.filter (same_pair gid fid) := by
      rw [hr0]
      exact List.mem_singleton_self r0
    exact (List.mem_filter.mp hmem).2
  refine ⟨update_guess gid fid a now r0, ?_, ?_⟩
  · rw [hr0]
    rfl
  · unfold update_guess
    rw [if_pos hr0p]

theorem register_guess_establishes (db : DB) (gid fid a : Nat) (now : String)
    (huniq : GuessPairsUnique db.guesses)
    (hfact : db.facts.countP (fun f => f.id == fid) ≠ 0) :
    ∃ r, (register_guess db gid fid a now).1.guesses.filter (same_pair gid fid)
        = [r] ∧ r.guessed_player_id = a := by
  by_cases hex : db.guesses.any (same_pair gid fid)
  · exact (register_guess_overwrite_lemma db gid fid a now huniq hex hfact).2
  · have hex' : db.guesses.any (same_pair gid fid) = false :=
      Bool.eq_false_iff.mpr hex
    rw [register_guess_insert_branch db gid fid a now hfact hex', List.filter_append]
    have hnil : db.guesses.filter (same_pair gid fid) = [] := by
      rw [List.filter_eq_nil_iff]
      intro x hx hpx
      rw [List.any_eq_true] at hex
      exact hex ⟨x, hx, hpx⟩
    rw [hnil, List.nil_append]
    have hsp : same_pair gid fid ⟨db.next_guess_id, gid, fid, a, now⟩ = true := by
      unfold same_pair
      simp
    refine ⟨⟨db.next_guess_id, gid, fid, a, now⟩, ?_, rfl⟩
    simp [List.filter_cons, hsp]

theorem register_guess_keeps (db : DB) (gid fid a : Nat) (now : String)
    (hQ : ∃ r, db.guesses.filter (same_pair gid fid) = [r] ∧ r.guessed_player_id = a)
    (hfact : db.facts.countP (fun f => f.id == fid) ≠ 0) :
    ∃ r, (register_guess db gid fid a now).1.guesses.filter (same_pair gid fid)
        = [r] ∧ r.guessed_player_id = a := by
  obtain ⟨r, hr, _⟩ := hQ
  have hrmem : r ∈ db.guesses.filter (same_pair gid fid) := by
    rw [hr]
    exact List.mem_singleton_self r
  have hex : db.guesses.any (same_pair gid fid) = true :=
    List.any_eq_true.mpr ⟨r, (List.mem_filter.mp hrmem).1, (List.mem_filter.mp hrmem).2⟩
  rw [register_guess_update_branch db gid fid a now hfact hex,
    filter_map_update _ _ (same_pair_update_guess gid fid a now), hr]
  refine ⟨update_guess gid fid a now r, rfl, ?_⟩
  unfold update_guess
  rw [if_pos (List.mem_filter.mp hrmem).2]

/-- C2: `register_guess` is idempotent under same-input retry: on a store
whose guesses respect the `UNIQUE(guesser_id, fact_id)` constraint and whose
fact exists, any non-zero number of `register_guess(g, f, a)` calls leaves
exactly one guess row with key `(g, f)`, and that row's claimed author is
`a`. -/
theorem register_guess_idempotent (db : DB) (gid fid a : Nat) (times : List String)
    (hne : times ≠ [])
    (huniq : GuessPairsUnique db.guesses)
    (hfact : db.facts.countP (fun f => f.id == fid) ≠ 0) :
    ∃ r, ((times.foldl (fun d t => (register_guess d gid fid a t).1) db).guesses.filter
        (same_pair gid fid)) = [r] ∧ r.guessed_player_id = a := by
  have main : ∀ (ts : List String) (d : DB),
      (∃ r, d.guesses.filter (same_pair gid fid) = [r] ∧ r.guessed_player_id = a) →
      d.facts.countP (fun f => f.id == fid) ≠ 0 →
      ∃ r, ((ts.foldl (fun d t => (register_guess d gid fid a t).1) d).guesses.filter
          (same_pair gid fid)) = [r] ∧ r.guessed_player_id = a := by
    intro ts
    induction ts with
    | nil =>
      intro d hQ _
      exact hQ
    | cons t2 ts2 ih =>
      intro d hQ hF
      rw [List.foldl_cons]
      refine ih _ (register_guess_keeps d gid fid a t2 hQ hF) ?_
      rw [register_guess_facts]
      exact hF
  cases times with
  | nil => exact absurd rfl hne
  | cons t ts =>
    rw [List.foldl_cons]
    refine main ts _ (register_guess_establishes db gid fid a t huniq hfact) ?_
    rw [register_guess_facts]
    exact hfact

/-- Witness for C2: Bob re-submits his scenario guess about fact 1 twice
more; exactly one row with key (2, 1) remains, claiming player 1. -/
theorem register_guess_idempotent_witness :
    (["t3", "t4"] ≠ ([] : List String) ∧ GuessPairsUnique scenario_db.guesses ∧
      scenario_db.facts.countP (fun f => f.id == 1) ≠ 0) ∧
    ∃ r, (((["t3", "t4"] : List String).foldl
        (fun d t => (register_guess d 2 1 1 t).1) scenario_db).guesses.filter
        (same_pair 2 1)) = [r] ∧ r.guessed_player_id = 1 :=
  ⟨⟨by decide, by unfold GuessPairsUnique; decide, by decide⟩,
    register_guess_idempotent scenario_db 2 1 1 ["t3", "t4"] (by decide)
      (by unfold GuessPairsUnique; decide) (by decide)⟩

/-- C3: at most one guess per (guesser, fact) is an invariant: starting
from a store satisfying the `UNIQUE(guesser_id, fact_id)` constraint, any
sequence of `register_guess` calls preserves it; and on an existing
(guesser, fact) pair with an existing fact, a new call with a different
claim overwrites the stored claim in place — the table size is unchanged
and the pair's single row now claims the new author — rather than adding a
row or being rejected. -/
theorem guesses_pair_unique_invariant (calls : List (Nat × Nat × Nat × String))
    (db : DB) (h : GuessPairsUnique db.guesses) :
    GuessPairsUnique ((calls.foldl
        (fun d c => (register_guess d c.1 c.2.1 c.2.2.1 c.2.2.2).1) db).guesses) ∧
    (∀ gid fid a now, db.guesses.any (same_pair gid fid) = true →
      db.facts.countP (fun f => f.id == fid) ≠ 0 →
      ((register_guess db gid fid a now).1.guesses.length = db.guesses.length ∧
        ∃ r, (register_guess db gid fid a now).1.guesses.filter (same_pair gid fid)
            = [r] ∧ r.guessed_player_id = a)) := by
  constructor
  · induction calls generalizing db with
    | nil => exact h
    | cons c calls ih =>
      rw [List.foldl_cons]
      exact ih _ (register_guess_preserves_unique db c.1 c.2.1 c.2.2.1 c.2.2.2 h)
  · intro gid fid a now hex hfact
    exact register_guess_overwrite_lemma db gid fid a now h hex hfact

/-- Witness for C3: on the scenario store, Bob changing his claim on fact 1
from Alice (1) to himself (2) overwrites the single row in place. -/
theorem guesses_pair_unique_invariant_witness :
    GuessPairsUnique scenario_db.guesses ∧
    (GuessPairsUnique (((([(2, 1, 2, "t3")] : List (Nat × Nat × Nat × String)).foldl
        (fun d c => (register_guess d c.1 c.2.1 c.2.2.1 c.2.2.2).1)
        scenario_db).guesses)) ∧
      (∀ gid fid a now, scenario_db.guesses.any (same_pair gid fid) = true →
        scenario_db.facts.countP (fun f => f.id == fid) ≠ 0 →
        ((register_guess scenario_db gid fid a now).1.guesses.length
            = scenario_db.guesses.length ∧
          ∃ r, (register_guess scenario_db gid fid a now).1.guesses.filter
              (same_pair gid fid) = [r] ∧ r.guessed_player_id = a))) :=
  ⟨by unfold GuessPairsUnique; decide,
    guesses_pair_unique_invariant [(2, 1, 2, "t3")] scenario_db
      (by unfold GuessPairsUnique; decide)⟩


/-! ### C1: the leaderboard — ordering lemmas for the BINARY collation -/

theorem chars_lt_nil_right (x : List Char) : chars_lt x [] = false := by
  cases x <;> rfl

theorem chars_lt_nil_left_cons (b : Char) (bs : List Char) :
    chars_lt [] (b :: bs) = true := rfl

theorem chars_lt_cons_cons (a b : Char) (as bs : List Char) :
    chars_lt (a :: as) (b :: bs)
      = (decide (a.toNat < b.toNat) || (a == b && chars_lt as bs)) := rfl

theorem chars_lt_asymm (x : List Char) :
    ∀ y, chars_lt x y = true → chars_lt y x = false := by
  induction x with
  | nil =>
    intro y h
    cases y with
    | nil =>
      rw [chars_lt_nil_right] at h
      exact absurd h (by simp)
    | cons b bs => exact chars_lt_nil_right (b :: bs)
  | cons a as ih =>
    intro y h
    cases y with
    | nil =>
      rw [chars_lt_nil_right] at h
      exact absurd h (by simp)
    | cons b bs =>
      rw [chars_lt_cons_cons] at h
      rw [chars_lt_cons_cons]
      rw [Bool.or_eq_true] at h
      rcases h with hlt | heq
      · have hab : a.toNat < b.toNat := of_decide_eq_true hlt
        have h1 : decide (b.toNat < a.toNat) = false := decide_eq_false (by omega)
        have h2 : (b == a) = false := by
          rw [beq_eq_false_iff_ne]
          intro hba
          rw [hba] at hab
          omega
        simp [h1, h2]
      · rw [Bool.and_eq_true] at heq
        have hab : a = b := eq_of_beq heq.1
        subst hab
        have h1 : decide (a.toNat < a.toNat) = false := decide_eq_false (by omega)
        have h2 : chars_lt bs as = false := ih bs heq.2
        simp [h1, h2]

theorem chars_lt_trans (x : List Char) :
    ∀ y z, chars_lt x y = true → chars_lt y z = true → chars_lt x z = true := by
  induction x with
  | nil =>
    intro y z hxy hyz
    cases z with
    | nil =>
      rw [chars_lt_nil_right] at hyz
      exact absurd hyz (by simp)
    | cons c cs => exact chars_lt_nil_left_cons c cs
  | cons a as ih =>
    intro y z hxy hyz
    cases y with
    | nil =>
      rw [chars_lt_nil_right] at hxy
      exact absurd hxy (by simp)
    | cons b bs =>
      cases z with
      | nil =>
        rw [chars_lt_nil_right] at hyz
        exact absurd hyz (by simp)
      | cons c cs =>
        rw [chars_lt_cons_cons] at hxy hyz ⊢
        rw [Bool.or_eq_true] at hxy hyz ⊢
        rcases hxy with h1 | h1 <;> rcases hyz with h2 | h2
        · left
          have ha := of_decide_eq_true h1
          have hb := of_decide_eq_true h2
          exact decide_eq_true (by omega)
        · rw [Bool.and_eq_true] at h2
          have hbc : b = c := eq_of_beq h2.1
          subst hbc
          left
          exact h1
        · rw [Bool.and_eq_true] at h1
          have hab : a = b := eq_of_beq h1.1
          subst hab
          left
          exact h2
        · rw [Bool.and_eq_true] at h1 h2
          have hab : a = b := eq_of_beq h1.1
          have hbc : b = c := eq_of_beq h2.1
          subst hab
          subst hbc
          right
          rw [Bool.and_eq_true]
          exact ⟨beq_self_eq_true a, ih bs cs h1.2 h2.2⟩

theorem chars_lt_connex (x : List Char) :
    ∀ y, chars_lt x y = false → chars_lt y x = false → x = y := by
  induction x with
  | nil =>
    intro y h1 h2
    cases y with
    | nil => rfl
    | cons b bs =>
      rw [chars_lt_nil_left_cons] at h1
      exact absurd h1 (by simp)
  | cons a as ih =>
    intro y h1 h2
    cases y with
    | nil =>
      rw [chars_lt_nil_left_cons] at h2
      exact absurd h2 (by simp)
    | cons b bs =>
      rw [chars_lt_cons_cons] at h1 h2
      rw [Bool.or_eq_false_iff] at h1 h2
      have hnab : ¬ a.toNat < b.toNat := of_decide_eq_false h1.1
      have hnba : ¬ b.toNat < a.toNat := of_decide_eq_false h2.1
      have heq : a = b := Char.eq_of_val_eq (UInt32.ext (show a.toNat = b.toNat by omega))
      subst heq
      rw [beq_self_eq_true, Bool.true_and] at h1 h2
      rw [ih bs h1.2 h2.2]

theorem chars_lt_le_trans (x y z : List Char) (h1 : chars_lt y x = false)
    (h2 : chars_lt z y = false) : chars_lt z x = false := by
  cases hzx : chars_lt z x
  · rfl
  · exfalso
    cases hyz : chars_lt y z
    · have hey : y = z := chars_lt_connex y z hyz h2
      rw [hey, hzx] at h1
      exact absurd h1 (by simp)
    · have hyx := chars_lt_trans y z x hyz hzx
      rw [hyx] at h1
      exact absurd h1 (by simp)

instance : IsTotal (String × Nat) lb_le := ⟨by
  intro a b
  rcases Nat.lt_trichotomy a.2 b.2 with h | h | h
  · right
    left
    exact h
  · cases hs : string_lt b.1 a.1
    · left
      right
      exact ⟨h, hs⟩
    · right
      right
      refine ⟨h.symm, ?_⟩
      exact chars_lt_asymm b.1.data a.1.data hs
  · left
    left
    exact h⟩

instance : IsTrans (String × Nat) lb_le := ⟨by
  intro a b c h1 h2
  rcases h1 with h1 | ⟨h1e, h1s⟩ <;> rcases h2 with h2 | ⟨h2e, h2s⟩
  · left
    omega
  · left
    omega
  · left
    omega
  · right
    refine ⟨h1e.trans h2e, ?_⟩
    exact chars_lt_le_trans a.1.data b.1.data c.1.data h1s h2s⟩

/-! ### C1: the leaderboard — the derived score -/

theorem fact_join_score_eq (facts : List Fact)
    (hn : (facts.map Fact.id).Nodup) (g : Guess) :
    fact_join_score facts g
      = (if facts.any (fun f => f.id == g.fact_id
            && f.player_id == g.guessed_player_id) then 1 else 0) := by
  induction facts with
  | nil => rfl
  | cons f fs ih =>
    rw [List.map_cons, List.nodup_cons] at hn
    unfold fact_join_score at ih ⊢
    by_cases hf : (f.id == g.fact_id)
    · have hfid : f.id = g.fact_id := beq_iff_eq.mp hf
      have htail_nil : fs.filter (fun x => x.id == g.fact_id) = [] := by
        rw [List.filter_eq_nil_iff]
        intro x hx hxp
        apply hn.1
        have hxid : x.id = g.fact_id := beq_iff_eq.mp hxp
        have hfx : f.id = x.id := by rw [hfid, hxid]
        rw [hfx]
        exact List.mem_map_of_mem Fact.id hx
      have htail_any : fs.any (fun x => x.id == g.fact_id
          && x.player_id == g.guessed_player_id) = false := by
        apply Bool.eq_false_iff.mpr
        intro hany
        obtain ⟨x, hx, hxp⟩ := List.any_eq_true.mp hany
        rw [Bool.and_eq_true] at hxp
        apply hn.1
        have hxid : x.id = g.fact_id := beq_iff_eq.mp hxp.1
        have hfx : f.id = x.id := by rw [hfid, hxid]
        rw [hfx]
        exact List.mem_map_of_mem Fact.id hx
      rw [List.filter_cons, List.any_cons, htail_any, Bool.or_false, hf,
        Bool.true_and, if_pos rfl, htail_nil]
      by_cases hp : g.guessed_player_id = f.player_id
      · have h1 : (g.guessed_player_id == f.player_id) = true := beq_iff_eq.mpr hp
        have h2 : (f.player_id == g.guessed_player_id) = true := beq_iff_eq.mpr hp.symm
        simp [List.countP_cons, h1, h2]
      · have h1 : (g.guessed_player_id == f.player_id) = false :=
          beq_eq_false_iff_ne.mpr hp
        have h2 : (f.player_id == g.guessed_player_id) = false :=
          beq_eq_false_iff_ne.mpr (fun hc => hp hc.symm)
        simp [List.countP_cons, h1, h2]
    · have hf' : (f.id == g.fact_id) = false := Bool.eq_false_iff.mpr hf
      rw [List.filter_cons, List.any_cons, hf', Bool.false_and, Bool.false_or]
      simp only [Bool.false_eq_true, if_false]
      exact ih hn.2

theorem sum_scores_eq_countP (facts : List Fact)
    (hn : (facts.map Fact.id).Nodup) (pid : Nat) (gs : List Guess) :
    ((gs.filter (fun g => g.guesser_id == pid)).map (fact_join_score facts)).sum
      = gs.countP (fun g => g.guesser_id == pid
          && facts.any (fun f => f.id == g.fact_id
              && f.player_id == g.guessed_player_id)) := by
  induction gs with
  | nil => rfl
  | cons g gs ih =>
    rw [List.filter_cons, List.countP_cons]
    by_cases hg : (g.guesser_id == pid)
    · simp only [hg, if_true, List.map_cons, List.sum_cons, Bool.true_and]
      rw [ih, fact_join_score_eq facts hn g]
      by_cases hany : facts.any (fun f => f.id == g.fact_id
          && f.player_id == g.guessed_player_id)
      · simp only [hany, if_true]
        omega
      · have hany' : facts.any (fun f => f.id == g.fact_id
            && f.player_id == g.guessed_player_id) = false := Bool.eq_false_iff.mpr hany
        simp only [hany', Bool.false_eq_true, if_false]
        omega
    · have hg' : (g.guesser_id == pid) = false := Bool.eq_false_iff.mpr hg
      simp only [hg', Bool.false_eq_true, if_false, Bool.false_and]
      rw [ih]
      omega

theorem player_score_eq_spec_score (db : DB)
    (hn : (db.facts.map Fact.id).Nodup) (pid : Nat) :
    player_score db pid = spec_score db pid := by
  unfold player_score spec_score
  exact sum_scores_eq_countP db.facts hn pid db.guesses

/-- C1: on a store whose fact ids are unique (the `facts` PRIMARY KEY) and
whose player names are unique (the `UNIQUE` name constraint), every row the
leaderboard shows for a player carries that player's derived score — the
count of their guesses whose claimed author equals the current true author
of the guessed fact, recomputed from the current facts table (so a player
with no correct guesses shows 0) — the rows are ordered by score descending
with ties broken by name ascending, and at most `limit` rows are
returned. -/
theorem leaderboard_correct (db : DB) (limit : Nat)
    (hfids : (db.facts.map Fact.id).Nodup)
    (hnames : (db.players.map Player.name).Nodup) :
    (∀ p ∈ db.players, ∀ e ∈ leaderboard db limit, e.1 = p.name →
        e.2 = spec_score db p.id) ∧
    (leaderboard db limit).length ≤ limit ∧
    (leaderboard db limit).Pairwise lb_le := by
  have hperm : List.Perm
      (List.insertionSort lb_le
        (db.players.map (fun p => (p.name, player_score db p.id))))
      (db.players.map (fun p => (p.name, player_score db p.id))) :=
    List.perm_insertionSort lb_le _
  refine ⟨?_, ?_, ?_⟩
  · intro p hp e he hname
    unfold leaderboard at he
    have hmem : e ∈ List.insertionSort lb_le
        (db.players.map (fun p => (p.name, player_score db p.id))) :=
      List.take_subset limit _ he
    have hmem2 : e ∈ db.players.map (fun p => (p.name, player_score db p.id)) :=
      hperm.subset hmem
    obtain ⟨q, hq, hqe⟩ := List.mem_map.mp hmem2
    have hqname : q.name = p.name := by
      rw [← hqe] at hname
      exact hname
    have hqp : q = p := List.inj_on_of_nodup_map hnames hq hp hqname
    rw [← hqe]
    show player_score db q.id = spec_score db p.id
    rw [hqp, player_score_eq_spec_score db hfids]
  · unfold leaderboard
    exact List.length_take_le limit _
  · unfold leaderboard
    exact List.Pairwise.sublist (List.take_sublist limit _)
      (List.sorted_insertionSort lb_le _)

/-- Witness for C1: the spec scenario.  The fact ids and names of
`scenario_db` are unique, Bob's row shows 1 and Alice's shows 0, at most 5
rows appear, and they are ordered. -/
theorem leaderboard_correct_witness :
    ((scenario_db.facts.map Fact.id).Nodup ∧
      (scenario_db.players.map Player.name).Nodup ∧
      leaderboard scenario_db 5 = [("Bob", 1), ("Alice", 0)]) ∧
    ((∀ p ∈ scenario_db.players, ∀ e ∈ leaderboard scenario_db 5,
        e.1 = p.name → e.2 = spec_score scenario_db p.id) ∧
      (leaderboard scenario_db 5).length ≤ 5 ∧
      (leaderboard scenario_db 5).Pairwise lb_le) :=
  ⟨⟨by decide, by decide, by decide⟩,
    leaderboard_correct scenario_db 5 (by decide) (by decide)⟩

end Bingo

